import Mathlib

/-!
Shallow embedding of `src/parser/corpus.h` from duncanka/lstm-parser:
the `CorpusVocabulary` bidirectional string-to-id tables with training
flags, their boost-serialization `save`/`load` pair, the arc-label
derivation from action names, and the `Sentence` data model with its
synthetic ROOT token index.

C++ `std::map` is modelled as an association list with at most one
binding per key: `mapFind` models `find`, `mapInsert` models `insert`
(a no-op when the key is present), `mapStore` models `operator[]`
assignment (overwrites when present).  `unsigned` ids are modelled as
`Nat`; the two places where wrap-around matters (the `(unsigned)-1`
sentinel returned by `GetPOS` and `ROOT_TOKEN_ID`) use the explicit
constant `2 ^ 32 - 1`.  Output to `std::cerr` is modelled as a returned
Boolean flag.
-/

namespace LstmParser

/-- Model of `std::map::find`: the value bound to `key`, if any. -/
def mapFind {α β : Type} [DecidableEq α] : List (α × β) → α → Option β
  | [], _ => none
  | (k, v) :: rest, key => if k = key then some v else mapFind rest key

/-- Model of `std::map::insert({key, val})`: no-op when `key` is
already bound, otherwise adds the binding. -/
def mapInsert {α β : Type} [DecidableEq α] (m : List (α × β)) (key : α) (val : β) :
    List (α × β) :=
  match mapFind m key with
  | some _ => m
  | none => m ++ [(key, val)]

/-- Model of `std::map::operator[]` assignment `m[key] = val`:
overwrites the binding when present, otherwise adds it. -/
def mapStore {α β : Type} [DecidableEq α] : List (α × β) → α → β → List (α × β)
  | [], key, val => [(key, val)]
  | (k, v) :: rest, key, val =>
    if k = key then (k, val) :: rest else (k, v) :: mapStore rest key val

/-- `StrToIntMap` of `corpus.h`. -/
abbrev StrToIntMap := List (String × Nat)

/-- Modelled from the spec: the literal value of
`CorpusVocabulary::BAD0` is defined in `corpus.cc`, which is not under
`src/`; the spec only fixes it as the reserved padding/invalid token at
word id 0 and char id 0, distinct from the unknown token. -/
def BAD0 : String := "<BAD0>"

/-- Modelled from the spec: the literal value of
`CorpusVocabulary::UNK` is defined in `corpus.cc`, which is not under
`src/`; the spec only fixes it as the reserved unknown-word token at
word id 1, distinct from the padding token. -/
def UNK : String := "<UNK>"

/-- Modelled from the spec: the literal value of
`CorpusVocabulary::ROOT` is defined in `corpus.cc`, not under `src/`. -/
def ROOT : String := "ROOT"

/-- `(unsigned)-1` on the 32-bit `unsigned` of the target platform. -/
def UNSIGNED_NEG_ONE : Nat := 2 ^ 32 - 1

/-- The state of `class CorpusVocabulary` (corpus.h lines 18-174). -/
structure CorpusVocabulary where
  words_to_int : StrToIntMap
  int_to_words : List String
  int_to_training_word : List Bool
  pos_to_int : StrToIntMap
  int_to_pos : List String
  chars_to_int : StrToIntMap
  int_to_chars : List String
  actions : List String
  actions_to_arc_labels : List String

/-- `CorpusVocabulary::AddEntry`: the new id is the current size of the
indexed list; the string is inserted into the map and appended to the
list.  Returns (new id, updated map, updated list). -/
def AddEntry (str : String) (m : StrToIntMap) (lst : List String) :
    Nat × StrToIntMap × List String :=
  (lst.length, mapInsert m str lst.length, lst ++ [str])

/-- `CorpusVocabulary::GetOrAddEntry`: return the existing id when
found, otherwise delegate to `AddEntry`. -/
def GetOrAddEntry (str : String) (m : StrToIntMap) (lst : List String) :
    Nat × StrToIntMap × List String :=
  match mapFind m str with
  | some v => (v, m, lst)
  | none => AddEntry str m lst

/-- The default constructor `CorpusVocabulary()`: training flags start
as `{true, true}`; `BAD0` and `UNK` are entered into the word tables
and `BAD0` into the character tables. -/
def CorpusVocabulary.init : CorpusVocabulary :=
  let e1 := AddEntry BAD0 [] []
  let e2 := AddEntry UNK e1.2.1 e1.2.2
  let e3 := AddEntry BAD0 [] []
  { words_to_int := e2.2.1
    int_to_words := e2.2.2
    int_to_training_word := [true, true]
    pos_to_int := []
    int_to_pos := []
    chars_to_int := e3.2.1
    int_to_chars := e3.2.2
    actions := []
    actions_to_arc_labels := [] }

/-- The copy constructor `CorpusVocabulary(const CorpusVocabulary&)`:
copies every table except the action-related members, which are left
default-constructed (empty). -/
def CorpusVocabulary.copy (other : CorpusVocabulary) : CorpusVocabulary :=
  { words_to_int := other.words_to_int
    int_to_words := other.int_to_words
    int_to_training_word := other.int_to_training_word
    pos_to_int := other.pos_to_int
    int_to_pos := other.int_to_pos
    chars_to_int := other.chars_to_int
    int_to_chars := other.int_to_chars
    actions := []
    actions_to_arc_labels := [] }

/-- `CorpusVocabulary::CountWords` (`words_to_int.size()`). -/
def CorpusVocabulary.CountWords (v : CorpusVocabulary) : Nat :=
  v.words_to_int.length

/-- `CorpusVocabulary::GetWord`: the id bound to `word`, else the id
bound to `UNK`.  The C++ fallback dereferences `find(UNK)` without a
check, so a state with no `UNK` binding is undefined behaviour; that
case is modelled as `none`. -/
def CorpusVocabulary.GetWord (v : CorpusVocabulary) (word : String) : Option Nat :=
  match mapFind v.words_to_int word with
  | some id => some id
  | none => mapFind v.words_to_int UNK

/-- `CorpusVocabulary::GetPOS`: the id bound to `word`, else
`(unsigned)-1`.  A const method: it takes no state and returns none. -/
def CorpusVocabulary.GetPOS (v : CorpusVocabulary) (word : String) : Nat :=
  match mapFind v.pos_to_int word with
  | some id => id
  | none => UNSIGNED_NEG_ONE

/-- `CorpusVocabulary::GetOrAddWord`: insert-or-lookup on the word
tables, then either append the training flag (new word) or OR it into
the existing flag (already-present word). -/
def CorpusVocabulary.GetOrAddWord (v : CorpusVocabulary) (word : String)
    (record_as_training : Bool) : Nat × CorpusVocabulary :=
  let num_words := v.CountWords
  let r := GetOrAddEntry word v.words_to_int v.int_to_words
  let v' : CorpusVocabulary := { v with words_to_int := r.2.1, int_to_words := r.2.2 }
  if v'.CountWords > num_words then
    (r.1, { v' with int_to_training_word := v'.int_to_training_word ++ [record_as_training] })
  else
    (r.1, { v' with int_to_training_word := v'.int_to_training_word.set r.1 (v'.int_to_training_word.getD r.1 false || record_as_training) })

/-- A sequence of `GetOrAddWord` calls (word, record_as_training),
applied left to right, keeping only the final state. -/
def applyCalls (v : CorpusVocabulary) (calls : List (String × Bool)) : CorpusVocabulary :=
  calls.foldl (fun acc c => (acc.GetOrAddWord c.1 c.2).2) v

/-- The training flag `int_to_training_word[i]`, `false` out of range. -/
def trainingFlag (v : CorpusVocabulary) (i : Nat) : Bool :=
  v.int_to_training_word.getD i false

/-- The character list of the arc-action infix `"-ARC("`. -/
def ARC_OPEN : List Char := ['-', 'A', 'R', 'C', '(']

/-- Modelled from the spec: `ARC_ACTION_REGEX` is defined in
`corpus.cc`, which is not under `src/`.  The spec fixes the naming
convention `<DIRECTION>-ARC(<label>)`; this scanner finds the first
occurrence of the `"-ARC("` infix and splits the text around it,
returning (text before, text after). -/
def findArcInfix : List Char → Option (List Char × List Char)
  | [] => none
  | c :: rest =>
    if (c :: rest).take 5 = ARC_OPEN then
      some ([], (c :: rest).drop 5)
    else
      match findArcInfix rest with
      | some (pre, post) => some (c :: pre, post)
      | none => none

/-- `CorpusVocabulary::GetLabelForAction`, with the pattern match
modelled from the spec (the regex literal lives in the missing
`corpus.cc`): an action of the form `<DIRECTION>-ARC(<label>)` with a
non-empty direction yields the captured label; anything else yields the
sentinel `"NONE"`. -/
def GetLabelForAction (action : String) : String :=
  match findArcInfix action.toList with
  | some (pre, post) =>
    if pre ≠ [] ∧ post.getLast? = some ')' then String.mk post.dropLast
    else "NONE"
  | none => "NONE"

/-- The persisted form written by `SerializeLists`: the five lists in
their fixed field order. -/
structure VocabularyArchive where
  int_to_words : List String
  int_to_pos : List String
  int_to_chars : List String
  int_to_training_word : List Bool
  actions : List String

/-- `CorpusVocabulary::save`: writes the five lists via
`SerializeLists`; reverse maps and `actions_to_arc_labels` are never
persisted. -/
def CorpusVocabulary.save (v : CorpusVocabulary) : VocabularyArchive :=
  { int_to_words := v.int_to_words
    int_to_pos := v.int_to_pos
    int_to_chars := v.int_to_chars
    int_to_training_word := v.int_to_training_word
    actions := v.actions }

/-- The load loop `for i: map[list[i]] = i`, starting at index `i`,
accumulating into `m` via `operator[]` stores. -/
def indexMapFrom (m : StrToIntMap) : List String → Nat → StrToIntMap
  | [], _ => m
  | s :: rest, i => indexMapFrom (mapStore m s i) rest (i + 1)

/-- The reverse map rebuilt by `load` from an id-to-string list. -/
def indexMap (l : List String) : StrToIntMap :=
  indexMapFrom [] l 0

/-- `CorpusVocabulary::load`: records the previous word count, clears
the six string/id tables, reads the five lists from the archive (boost
deserialization of a `std::vector` replaces its contents, so
`int_to_training_word` and `actions` are replaced even though they are
not manually cleared), rebuilds the three reverse maps by indexed
stores, and pushes a derived arc label for each loaded action onto
`actions_to_arc_labels` — which is never cleared, so the derived labels
are appended after any entries the vocabulary already held.  The
returned Boolean is the shrinkage warning printed to `std::cerr` when
the loaded word list is shorter than the previous one; it does not
affect the resulting state. -/
def CorpusVocabulary.load (v : CorpusVocabulary) (ar : VocabularyArchive) :
    CorpusVocabulary × Bool :=
  let num_existing_words := v.int_to_words.length
  let warn := ar.int_to_words.length < num_existing_words
  ({ words_to_int := indexMap ar.int_to_words
     int_to_words := ar.int_to_words
     int_to_training_word := ar.int_to_training_word
     pos_to_int := indexMap ar.int_to_pos
     int_to_pos := ar.int_to_pos
     chars_to_int := indexMap ar.int_to_chars
     int_to_chars := ar.int_to_chars
     actions := ar.actions
     actions_to_arc_labels :=
       v.actions_to_arc_labels ++ ar.actions.map GetLabelForAction }, warn)

/-- `struct Sentence`: the two sparse token-index maps and the OOV
surface-form side table, each modelled as an association list whose
order stands for `std::map`'s ascending-key iteration order (the
ordering claims below take sortedness as a hypothesis). -/
structure Sentence where
  words : List (Nat × Nat)
  poses : List (Nat × Nat)
  unk_surface_forms : List (Nat × String)

/-- `Sentence::Size`. -/
def Sentence.Size (s : Sentence) : Nat :=
  s.words.length

/-- `Corpus::ROOT_TOKEN_ID`: unsigned id `-1`. -/
def ROOT_TOKEN_ID : Nat := UNSIGNED_NEG_ONE

/-- The vocabulary produced by loading an archive into a freshly
default-constructed vocabulary, the load path used when a persisted
model is read back. -/
def reloaded (ar : VocabularyArchive) : CorpusVocabulary :=
  (CorpusVocabulary.init.load ar).1

/-- A vocabulary that already holds one registered action and its
derived arc label before a `load` is invoked on it. -/
def vocabWithAction : CorpusVocabulary :=
  { CorpusVocabulary.init with actions := ["SHIFT"], actions_to_arc_labels := ["NONE"] }

/-- A vocabulary holding three words: the two reserved entries plus
one word added through `GetOrAddWord`. -/
def threeWordVocab : CorpusVocabulary :=
  (CorpusVocabulary.init.GetOrAddWord "dog" false).2

/-- A sentence with one real token at index 0 and the synthetic ROOT
token at `ROOT_TOKEN_ID`. -/
def rootSentence : Sentence :=
  { words := [(0, 5), (ROOT_TOKEN_ID, 7)], poses := [], unk_surface_forms := [] }

/-! ### Lemmas about the map model -/

theorem mapFind_store_self {α β : Type} [DecidableEq α] (m : List (α × β)) (k : α) (v : β) :
    mapFind (mapStore m k v) k = some v := by
  induction m with
  | nil => simp [mapStore, mapFind]
  | cons p rest ih =>
    obtain ⟨k2, v2⟩ := p
    by_cases h : k2 = k
    · subst h
      simp [mapStore, mapFind]
    · simp [mapStore, mapFind, h, ih]

theorem mapFind_store_ne {α β : Type} [DecidableEq α] (m : List (α × β)) (k k' : α) (v : β)
    (h : k ≠ k') : mapFind (mapStore m k v) k' = mapFind m k' := by
  induction m with
  | nil => simp [mapStore, mapFind, h]
  | cons p rest ih =>
    obtain ⟨k2, v2⟩ := p
    by_cases h2 : k2 = k
    · subst h2
      simp [mapStore, mapFind, h]
    · simp [mapStore, mapFind, h2, ih]

theorem mapFind_append_some {α β : Type} [DecidableEq α] {m : List (α × β)} {k : α} {v : β}
    (h : mapFind m k = some v) (m' : List (α × β)) : mapFind (m ++ m') k = some v := by
  induction m with
  | nil => simp [mapFind] at h
  | cons p rest ih =>
    obtain ⟨k2, v2⟩ := p
    by_cases h2 : k2 = k
    · subst h2
      simp [mapFind] at h ⊢
      exact h
    · simp [mapFind, h2] at h ⊢
      exact ih h

theorem mapFind_append_none {α β : Type} [DecidableEq α] {m : List (α × β)} {k : α}
    (h : mapFind m k = none) (m' : List (α × β)) : mapFind (m ++ m') k = mapFind m' k := by
  induction m with
  | nil => rfl
  | cons p rest ih =>
    obtain ⟨k2, v2⟩ := p
    by_cases h2 : k2 = k
    · subst h2
      simp [mapFind] at h
    · simp [mapFind, h2] at h ⊢
      exact ih h

theorem mapFind_insert_preserved {α β : Type} [DecidableEq α] {m : List (α × β)} {k : α} {v : β}
    (h : mapFind m k = some v) (k' : α) (v' : β) : mapFind (mapInsert m k' v') k = some v := by
  unfold mapInsert
  cases hf : mapFind m k' with
  | some w => exact h
  | none => exact mapFind_append_some h _

/-! ### Lemmas about `List.getD` -/

theorem getD_lt_of_true {l : List Bool} {i : Nat} (h : l.getD i false = true) : i < l.length := by
  induction l generalizing i with
  | nil => simp [List.getD] at h
  | cons x rest ih =>
    cases i with
    | zero => simp
    | succ n =>
      have : rest.getD n false = true := h
      have := ih this
      simp
      omega

theorem getD_append_left {α : Type} (l l' : List α) (d : α) (i : Nat) (h : i < l.length) :
    (l ++ l').getD i d = l.getD i d := by
  induction l generalizing i with
  | nil => simp at h
  | cons x rest ih =>
    cases i with
    | zero => rfl
    | succ n => exact ih n (by simpa using h)

theorem getD_set_self {α : Type} (l : List α) (i : Nat) (x d : α) (h : i < l.length) :
    (l.set i x).getD i d = x := by
  induction l generalizing i with
  | nil => simp at h
  | cons y rest ih =>
    cases i with
    | zero => rfl
    | succ n => exact ih n (by simpa using h)

theorem getD_set_ne {α : Type} (l : List α) (i j : Nat) (x d : α) (h : i ≠ j) :
    (l.set i x).getD j d = l.getD j d := by
  induction l generalizing i j with
  | nil => rfl
  | cons y rest ih =>
    cases i with
    | zero =>
      cases j with
      | zero => exact absurd rfl h
      | succ n => rfl
    | succ n =>
      cases j with
      | zero => rfl
      | succ n2 => exact ih n n2 (by omega)

/-! ### Lemmas about the reverse-map rebuild loop of `load` -/

theorem indexMapFrom_find_of_not_mem {l : List String} {s : String} (h : s ∉ l)
    (m : StrToIntMap) (i : Nat) : mapFind (indexMapFrom m l i) s = mapFind m s := by
  induction l generalizing m i with
  | nil => rfl
  | cons x rest ih =>
    have hx : x ≠ s := fun he => h (he ▸ List.mem_cons_self x rest)
    have hrest : s ∉ rest := fun hm => h (List.mem_cons_of_mem x hm)
    show mapFind (indexMapFrom (mapStore m x i) rest (i + 1)) s = mapFind m s
    rw [ih hrest, mapFind_store_ne m x s i hx]

theorem indexMapFrom_find_nodup {l : List String} (hnd : l.Nodup) :
    ∀ (m : StrToIntMap) (i j : Nat) (h : j < l.length),
      mapFind (indexMapFrom m l i) (l.get ⟨j, h⟩) = some (i + j) := by
  induction l with
  | nil =>
    intro m i j h
    simp at h
  | cons x rest ih =>
    intro m i j h
    cases j with
    | zero =>
      show mapFind (indexMapFrom (mapStore m x i) rest (i + 1)) x = some (i + 0)
      rw [indexMapFrom_find_of_not_mem (List.nodup_cons.mp hnd).1,
        mapFind_store_self]
      simp
    | succ n =>
      show mapFind (indexMapFrom (mapStore m x i) rest (i + 1))
          (rest.get ⟨n, by simpa using h⟩) = some (i + (n + 1))
      rw [ih (List.nodup_cons.mp hnd).2 (mapStore m x i) (i + 1) n (by simpa using h)]
      congr 1
      omega

/-! ### Lemmas about `GetOrAddWord` -/

theorem getOrAddWord_found {v : CorpusVocabulary} {w : String} {id : Nat}
    (h : mapFind v.words_to_int w = some id) (b : Bool) :
    (v.GetOrAddWord w b).1 = id ∧
    (v.GetOrAddWord w b).2.words_to_int = v.words_to_int ∧
    (v.GetOrAddWord w b).2.int_to_words = v.int_to_words ∧
    (v.GetOrAddWord w b).2.int_to_training_word
      = v.int_to_training_word.set id (v.int_to_training_word.getD id false || b) := by
  unfold CorpusVocabulary.GetOrAddWord
  simp [GetOrAddEntry, h, CorpusVocabulary.CountWords]

theorem getOrAddWord_not_found {v : CorpusVocabulary} {w : String}
    (h : mapFind v.words_to_int w = none) (b : Bool) :
    (v.GetOrAddWord w b).1 = v.int_to_words.length ∧
    (v.GetOrAddWord w b).2.words_to_int
      = v.words_to_int ++ [(w, v.int_to_words.length)] ∧
    (v.GetOrAddWord w b).2.int_to_words = v.int_to_words ++ [w] ∧
    (v.GetOrAddWord w b).2.int_to_training_word = v.int_to_training_word ++ [b] := by
  unfold CorpusVocabulary.GetOrAddWord
  simp [GetOrAddEntry, AddEntry, h, mapInsert, CorpusVocabulary.CountWords]

theorem getOrAddWord_find_self (v : CorpusVocabulary) (w : String) (b : Bool) :
    mapFind (v.GetOrAddWord w b).2.words_to_int w = some (v.GetOrAddWord w b).1 := by
  cases h : mapFind v.words_to_int w with
  | some id =>
    rw [(getOrAddWord_found h b).2.1, (getOrAddWord_found h b).1]
    exact h
  | none =>
    rw [(getOrAddWord_not_found h b).2.1, (getOrAddWord_not_found h b).1]
    rw [mapFind_append_none h]
    simp [mapFind]

theorem getOrAddWord_find_preserved {v : CorpusVocabulary} {w : String} {id : Nat}
    (h : mapFind v.words_to_int w = some id) (u : String) (b : Bool) :
    mapFind (v.GetOrAddWord u b).2.words_to_int w = some id := by
  cases hf : mapFind v.words_to_int u with
  | some uid => rw [(getOrAddWord_found hf b).2.1]; exact h
  | none =>
    rw [(getOrAddWord_not_found hf b).2.1]
    exact mapFind_append_some h _

theorem applyCalls_find_preserved {v : CorpusVocabulary} {w : String} {id : Nat}
    (h : mapFind v.words_to_int w = some id) (calls : List (String × Bool)) :
    mapFind (applyCalls v calls).words_to_int w = some id := by
  induction calls generalizing v with
  | nil => exact h
  | cons c rest ih => exact ih (getOrAddWord_find_preserved h c.1 c.2)

theorem getOrAddWord_flag_mono {v : CorpusVocabulary} {i : Nat}
    (h : trainingFlag v i = true) (u : String) (b : Bool) :
    trainingFlag (v.GetOrAddWord u b).2 i = true := by
  have hlt : i < v.int_to_training_word.length := getD_lt_of_true h
  unfold trainingFlag at h ⊢
  cases hf : mapFind v.words_to_int u with
  | some uid =>
    rw [(getOrAddWord_found hf b).2.2.2]
    by_cases he : uid = i
    · subst he
      rw [getD_set_self _ _ _ _ hlt]
      rw [h]
      simp
    · rw [getD_set_ne _ _ _ _ _ he]
      exact h
  | none =>
    rw [(getOrAddWord_not_found hf b).2.2.2]
    rw [getD_append_left _ _ _ _ hlt]
    exact h

theorem applyCalls_flag_mono {v : CorpusVocabulary} {i : Nat}
    (h : trainingFlag v i = true) (calls : List (String × Bool)) :
    trainingFlag (applyCalls v calls) i = true := by
  induction calls generalizing v with
  | nil => exact h
  | cons c rest ih => exact ih (getOrAddWord_flag_mono h c.1 c.2)

/-! ### Sorted association lists put their maximal key last -/

theorem sorted_bounded_getLast {α : Type} (M : Nat) (r : α) :
    ∀ (l : List (Nat × α)), l.Pairwise (fun a b => a.1 < b.1) →
      (∀ p ∈ l, p.1 ≤ M) → (M, r) ∈ l → l.getLast? = some (M, r) := by
  intro l
  induction l with
  | nil =>
    intro _ _ hm
    cases hm
  | cons x xs ih =>
    intro hp hb hm
    cases xs with
    | nil =>
      have : (M, r) = x := List.mem_singleton.mp hm
      rw [← this]
      rfl
    | cons y ys =>
      have hpair := List.pairwise_cons.mp hp
      cases hm with
      | head =>
        exfalso
        have hy : y.1 ≤ M := hb y (List.mem_cons_of_mem _ (List.mem_cons_self y ys))
        have hxy : (M, r).1 < y.1 := hpair.1 y (List.mem_cons_self y ys)
        simp at hxy
        omega
      | tail _ hm' =>
        rw [List.getLast?_cons_cons]
        exact ih hpair.2 (fun p hp' => hb p (List.mem_cons_of_mem _ hp')) hm'

/-! ### The arc-label scanner on a composed action name -/

theorem findArcInfix_split (tail : List Char) :
    ∀ (pre : List Char), '-' ∉ pre →
      findArcInfix (pre ++ ARC_OPEN ++ tail) = some (pre, tail) := by
  intro pre
  induction pre with
  | nil =>
    intro _
    show findArcInfix ('-' :: 'A' :: 'R' :: 'C' :: '(' :: tail) = some ([], tail)
    unfold findArcInfix
    have ht : List.take 5 ('-' :: 'A' :: 'R' :: 'C' :: '(' :: tail) = ARC_OPEN := rfl
    rw [if_pos ht]
    rfl
  | cons c cs ih =>
    intro h
    have hc : c ≠ '-' := fun he => h (he ▸ List.mem_cons_self c cs)
    have hrest : '-' ∉ cs := fun hm => h (List.mem_cons_of_mem c hm)
    show findArcInfix (c :: (cs ++ ARC_OPEN ++ tail)) = some (c :: cs, tail)
    unfold findArcInfix
    rw [if_neg]
    · rw [ih hrest]
    · intro heq
      simp [ARC_OPEN, List.take] at heq
      exact hc heq.1

/-! ### Claim theorems -/

/-- C3: for every vocabulary state whose word table binds the reserved
unknown-word token `UNK` (true of every state the program constructs),
`GetWord text` returns the id bound to `text` when present and the
reserved unknown-word id otherwise; the call never fails.  `GetWord`
is a `const` method, embedded as a pure function of the state, so it
leaves the vocabulary unchanged by construction. -/
theorem getWord_unk_fallback (v : CorpusVocabulary) (text : String) (u : Nat)
    (hu : mapFind v.words_to_int UNK = some u) :
    (∀ i, mapFind v.words_to_int text = some i → v.GetWord text = some i) ∧
    (mapFind v.words_to_int text = none → v.GetWord text = some u) := by
  constructor
  · intro i hi
    simp [CorpusVocabulary.GetWord, hi]
  · intro hn
    simp [CorpusVocabulary.GetWord, hn, hu]

theorem getWord_unk_fallback_witness :
    CorpusVocabulary.init.GetWord "unseen" = some 1 :=
  (getWord_unk_fallback CorpusVocabulary.init "unseen" 1 (by decide)).2 (by decide)

/-- C8: `GetPOS` on a tag absent from the POS table returns the
explicit not-found sentinel `(unsigned)-1` and on a present tag
returns that tag's id.  `GetPOS` is a `const` method, embedded as a
pure function of the state, so it performs no insertion and leaves the
vocabulary unchanged by construction. -/
theorem getPOS_sentinel (v : CorpusVocabulary) (tag : String) :
    (mapFind v.pos_to_int tag = none → v.GetPOS tag = UNSIGNED_NEG_ONE) ∧
    (∀ i, mapFind v.pos_to_int tag = some i → v.GetPOS tag = i) := by
  constructor
  · intro hn
    simp [CorpusVocabulary.GetPOS, hn]
  · intro i hi
    simp [CorpusVocabulary.GetPOS, hi]

theorem getPOS_sentinel_witness :
    CorpusVocabulary.init.GetPOS "NN" = UNSIGNED_NEG_ONE :=
  (getPOS_sentinel CorpusVocabulary.init "NN").1 (by decide)

/-- C10: the copy constructor copies the word, POS, and character
tables in both directions and the training flags, and leaves the
copy's actions list and arc-label table empty regardless of the
source's action state.  The source is passed by `const` reference and
the copy is built as a pure function of it, so the source is unchanged
by construction. -/
theorem copy_constructor_frame (v : CorpusVocabulary) :
    v.copy.words_to_int = v.words_to_int ∧
    v.copy.int_to_words = v.int_to_words ∧
    v.copy.int_to_training_word = v.int_to_training_word ∧
    v.copy.pos_to_int = v.pos_to_int ∧
    v.copy.int_to_pos = v.int_to_pos ∧
    v.copy.chars_to_int = v.chars_to_int ∧
    v.copy.int_to_chars = v.int_to_chars ∧
    v.copy.actions = [] ∧
    v.copy.actions_to_arc_labels = [] :=
  ⟨rfl, rfl, rfl, rfl, rfl, rfl, rfl, rfl, rfl⟩

/-- C2 counterexample: invoking `load` on a vocabulary that already
holds a registered action and its arc label does not leave exactly one
arc-label entry per action: the loaded vocabulary has one action but
two arc-label entries, because `load` appends the derived labels to
`actions_to_arc_labels` without clearing it first. -/
theorem load_arc_labels_counterexample :
    ¬ ((vocabWithAction.load vocabWithAction.save).1.actions_to_arc_labels.length
        = (vocabWithAction.load vocabWithAction.save).1.actions.length) := by
  decide

/-- C2 amended: after a `load` into a vocabulary whose arc-label table
is empty beforehand (as in a freshly constructed vocabulary), the
arc-label table has exactly one entry per action, each equal to the
label derived from the corresponding action string; a `load` into a
vocabulary that already holds arc labels appends the derived labels
after the stale entries instead of recomputing the table. -/
theorem load_arc_labels_fresh (v : CorpusVocabulary) (ar : VocabularyArchive)
    (h : v.actions_to_arc_labels = []) :
    (v.load ar).1.actions_to_arc_labels
      = ((v.load ar).1.actions).map GetLabelForAction := by
  simp [CorpusVocabulary.load, h]

theorem load_arc_labels_fresh_witness :
    (CorpusVocabulary.init.load vocabWithAction.save).1.actions_to_arc_labels
      = ((CorpusVocabulary.init.load vocabWithAction.save).1.actions).map
          GetLabelForAction :=
  load_arc_labels_fresh CorpusVocabulary.init vocabWithAction.save rfl

/-- C5: when the loaded word list is shorter than the one held before
the `load`, the shrinkage warning is emitted (modelled as the returned
Boolean, standing for the line printed to `std::cerr`), loading still
completes with the newly loaded smaller vocabulary active, and the
warning never alters the loaded result: the resulting state is the
same as loading the same archive into any vocabulary with the same
arc-label table, whatever its prior word count. -/
theorem load_shrinkage_warning (v : CorpusVocabulary) (ar : VocabularyArchive)
    (h : ar.int_to_words.length < v.int_to_words.length) :
    (v.load ar).2 = true ∧
    (v.load ar).1.int_to_words = ar.int_to_words ∧
    (v.load ar).1.int_to_pos = ar.int_to_pos ∧
    (v.load ar).1.int_to_chars = ar.int_to_chars ∧
    (v.load ar).1.int_to_training_word = ar.int_to_training_word ∧
    (v.load ar).1.actions = ar.actions ∧
    (∀ w : CorpusVocabulary, w.actions_to_arc_labels = v.actions_to_arc_labels →
      (w.load ar).1 = (v.load ar).1) := by
  refine ⟨by simp [CorpusVocabulary.load, h], rfl, rfl, rfl, rfl, rfl, ?_⟩
  intro w hw
  simp [CorpusVocabulary.load, hw]

theorem load_shrinkage_warning_witness :
    (threeWordVocab.load CorpusVocabulary.init.save).2 = true :=
  (load_shrinkage_warning threeWordVocab CorpusVocabulary.init.save (by decide)).1

/-- C7: the arc-label derivation is a pure function of the action
string (it takes no vocabulary state).  On an action of the form
`<DIRECTION>-ARC(<label>)` with a non-empty direction it returns the
captured label text; in particular it maps `"LEFT-ARC(nsubj)"` to
`"nsubj"` and the non-matching `"SHIFT"` to the sentinel `"NONE"`. -/
theorem getLabelForAction_pure_pattern :
    (∀ dir label : String, dir.toList ≠ [] → '-' ∉ dir.toList →
        GetLabelForAction (dir ++ "-ARC(" ++ label ++ ")") = label) ∧
    GetLabelForAction "LEFT-ARC(nsubj)" = "nsubj" ∧
    GetLabelForAction "SHIFT" = "NONE" := by
  refine ⟨?_, by decide, by decide⟩
  intro dir label hne hnm
  unfold GetLabelForAction
  have h1 : ∀ a b : String, (a ++ b).toList = a.toList ++ b.toList := fun a b => by
    simp [String.toList]
  have htl : (dir ++ "-ARC(" ++ label ++ ")").toList
      = dir.toList ++ ARC_OPEN ++ (label.toList ++ [')']) := by
    rw [h1, h1, h1]
    show dir.toList ++ ARC_OPEN ++ label.toList ++ [')']
        = dir.toList ++ ARC_OPEN ++ (label.toList ++ [')'])
    rw [List.append_assoc (dir.toList ++ ARC_OPEN)]
  rw [htl, findArcInfix_split (label.toList ++ [')']) dir.toList hnm]
  dsimp only
  rw [if_pos ⟨hne, by simp⟩]
  have hd : (label.toList ++ [')']).dropLast = label.toList := by simp
  rw [hd]
  rfl

theorem getLabelForAction_pure_pattern_witness :
    GetLabelForAction ("RIGHT" ++ "-ARC(" ++ "xcomp" ++ ")") = "xcomp" :=
  getLabelForAction_pure_pattern.1 "RIGHT" "xcomp" (by decide) (by decide)

/-- C6: for a sentence whose token-index maps are sorted by ascending
token index (the iteration order of `std::map`), whose keys lie in the
unsigned range bounded by `ROOT_TOKEN_ID` (the maximum representable
unsigned value), and which contain the synthetic ROOT token at
`ROOT_TOKEN_ID`, iterating yields the ROOT token last, regardless of
how many real tokens the sentence holds; stated for both the word map
and the POS map. -/
theorem sentence_root_iterated_last (s : Sentence) :
    (s.words.Pairwise (fun a b => a.1 < b.1) →
      (∀ p ∈ s.words, p.1 ≤ ROOT_TOKEN_ID) →
      ∀ r, (ROOT_TOKEN_ID, r) ∈ s.words →
        s.words.getLast? = some (ROOT_TOKEN_ID, r)) ∧
    (s.poses.Pairwise (fun a b => a.1 < b.1) →
      (∀ p ∈ s.poses, p.1 ≤ ROOT_TOKEN_ID) →
      ∀ r, (ROOT_TOKEN_ID, r) ∈ s.poses →
        s.poses.getLast? = some (ROOT_TOKEN_ID, r)) := by
  constructor
  · intro hp hb r hm
    exact sorted_bounded_getLast ROOT_TOKEN_ID r s.words hp hb hm
  · intro hp hb r hm
    exact sorted_bounded_getLast ROOT_TOKEN_ID r s.poses hp hb hm

theorem sentence_root_iterated_last_witness :
    rootSentence.words.getLast? = some (ROOT_TOKEN_ID, 7) :=
  (sentence_root_iterated_last rootSentence).1 (by decide) (by decide) 7 (by decide)

/-- C4: the training flag of a word id is monotonic: once true, no
sequence of further `GetOrAddWord` calls, with any training flags and
on any words, makes it false again; and a call with
`record_as_training = true` on an already-present word sets that
word's flag through an OR, so it ends up true. -/
theorem training_flag_monotone :
    (∀ (v : CorpusVocabulary) (calls : List (String × Bool)) (i : Nat),
        trainingFlag v i = true → trainingFlag (applyCalls v calls) i = true) ∧
    (∀ (v : CorpusVocabulary) (w : String) (id : Nat),
        mapFind v.words_to_int w = some id → id < v.int_to_training_word.length →
        trainingFlag (v.GetOrAddWord w true).2 id = true) := by
  constructor
  · intro v calls i h
    exact applyCalls_flag_mono h calls
  · intro v w id hfind hlt
    unfold trainingFlag
    rw [(getOrAddWord_found hfind true).2.2.2, getD_set_self _ _ _ _ hlt]
    simp

theorem training_flag_monotone_witness :
    trainingFlag (applyCalls CorpusVocabulary.init [("dog", false), ("cat", false)]) 1
      = true :=
  training_flag_monotone.1 CorpusVocabulary.init [("dog", false), ("cat", false)] 1
    (by decide)

/-- C9: id assignment is idempotent: after a word is inserted through
`GetOrAddWord`, any later sequence of `GetOrAddWord` calls leaves its
id intact, a later `GetWord` returns that id, a later `GetOrAddWord`
on the same word (with any training flag) returns that id, and the
repeated call creates no new word-table entry. -/
theorem getOrAddWord_idempotent_id (v : CorpusVocabulary) (w : String) (b b' : Bool)
    (calls : List (String × Bool)) :
    (applyCalls (v.GetOrAddWord w b).2 calls).GetWord w
      = some (v.GetOrAddWord w b).1 ∧
    ((applyCalls (v.GetOrAddWord w b).2 calls).GetOrAddWord w b').1
      = (v.GetOrAddWord w b).1 ∧
    ((applyCalls (v.GetOrAddWord w b).2 calls).GetOrAddWord w b').2.words_to_int
      = (applyCalls (v.GetOrAddWord w b).2 calls).words_to_int ∧
    ((applyCalls (v.GetOrAddWord w b).2 calls).GetOrAddWord w b').2.int_to_words
      = (applyCalls (v.GetOrAddWord w b).2 calls).int_to_words := by
  have h2 := applyCalls_find_preserved (getOrAddWord_find_self v w b) calls
  refine ⟨?_, (getOrAddWord_found h2 b').1, (getOrAddWord_found h2 b').2.1,
    (getOrAddWord_found h2 b').2.2.1⟩
  simp [CorpusVocabulary.GetWord, h2]

/-- C1: round-trip: loading the archive saved from any vocabulary `V`
that satisfies the spec's data-model invariants (no duplicate entries
in the three id-to-string lists, arc-label table derived from the
actions) into a freshly constructed vocabulary reproduces `V`'s
id-to-word, id-to-pos, id-to-char, training-flag, and action lists
exactly, rebuilds the three reverse maps consistently (each listed
string is mapped back to its index), and derives an arc-label table
equal to the one `V` held before saving. -/
theorem round_trip_load_save (V : CorpusVocabulary)
    (harc : V.actions_to_arc_labels = V.actions.map GetLabelForAction)
    (hw : V.int_to_words.Nodup) (hp : V.int_to_pos.Nodup) (hc : V.int_to_chars.Nodup) :
    (reloaded V.save).int_to_words = V.int_to_words ∧
    (reloaded V.save).int_to_pos = V.int_to_pos ∧
    (reloaded V.save).int_to_chars = V.int_to_chars ∧
    (reloaded V.save).int_to_training_word = V.int_to_training_word ∧
    (reloaded V.save).actions = V.actions ∧
    (∀ j (h : j < V.int_to_words.length),
      mapFind (reloaded V.save).words_to_int (V.int_to_words.get ⟨j, h⟩) = some j) ∧
    (∀ j (h : j < V.int_to_pos.length),
      mapFind (reloaded V.save).pos_to_int (V.int_to_pos.get ⟨j, h⟩) = some j) ∧
    (∀ j (h : j < V.int_to_chars.length),
      mapFind (reloaded V.save).chars_to_int (V.int_to_chars.get ⟨j, h⟩) = some j) ∧
    (reloaded V.save).actions_to_arc_labels = V.actions_to_arc_labels := by
  refine ⟨rfl, rfl, rfl, rfl, rfl, ?_, ?_, ?_, ?_⟩
  · intro j h
    show mapFind (indexMapFrom [] V.int_to_words 0) (V.int_to_words.get ⟨j, h⟩) = some j
    have := indexMapFrom_find_nodup hw [] 0 j h
    simpa using this
  · intro j h
    show mapFind (indexMapFrom [] V.int_to_pos 0) (V.int_to_pos.get ⟨j, h⟩) = some j
    have := indexMapFrom_find_nodup hp [] 0 j h
    simpa using this
  · intro j h
    show mapFind (indexMapFrom [] V.int_to_chars 0) (V.int_to_chars.get ⟨j, h⟩) = some j
    have := indexMapFrom_find_nodup hc [] 0 j h
    simpa using this
  · show ([] : List String) ++ V.actions.map GetLabelForAction = V.actions_to_arc_labels
    rw [List.nil_append, ← harc]

theorem round_trip_load_save_witness :
    (reloaded threeWordVocab.save).int_to_words = threeWordVocab.int_to_words :=
  (round_trip_load_save threeWordVocab rfl (by decide) (by decide) (by decide)).1

end LstmParser
